import Mathlib

/-!
# Verification of `process_csv.py` (GateNLP/gate-cloud-tools)

A shallow embedding of the core of `src/process-csv/process_csv.py`:

* the template evaluator (`unescape_lt_amp`, `text_under`, `response_to_column`),
* the column-specification compiler (`output_function`),
* the adaptive rate limiter (`CsvProcessor.handle_rate_limit`), and
* the per-row retry / output state machine (`CsvProcessor.run`).

Python machine floats are modelled by exact rationals (Python's literal
`1.05` denotes a binary double close to `21/20`; for the rational inputs
appearing in the theorems below the float computations of the source round
to exactly the same values, and no theorem depends on a float rounding
difference).  Python exceptions are modelled by `Except PyErr`.
-/

/-- Python exception kinds that the embedded code can raise. -/
inductive PyErr where
  | keyError
  | valueError
  | typeError
  | zeroDivisionError
  | indexError
  | nameError
  deriving DecidableEq, Repr

instance {ε α : Type} [DecidableEq ε] [DecidableEq α] : DecidableEq (Except ε α) := fun a b =>
  match a, b with
  | Except.ok x, Except.ok y =>
      if h : x = y then Decidable.isTrue (by rw [h])
      else Decidable.isFalse (fun hc => by cases hc; exact h rfl)
  | Except.error x, Except.error y =>
      if h : x = y then Decidable.isTrue (by rw [h])
      else Decidable.isFalse (fun hc => by cases hc; exact h rfl)
  | Except.ok _, Except.error _ => Decidable.isFalse (fun hc => by cases hc)
  | Except.error _, Except.ok _ => Decidable.isFalse (fun hc => by cases hc)

/-! ## Python string helpers -/

/-- Characters matched by the regex class `\s` (and removed by `str.strip`). -/
def pySpace (c : Char) : Bool :=
  c = ' ' || c = '\t' || c = '\n' || c = '\r' || c = '\x0b' || c = '\x0c'

/-- Characters matched by the regex class `\w` (ASCII fragment). -/
def wordChar (c : Char) : Bool :=
  c.isAlphanum || c = '_'

/-- Python `str.strip()`. -/
def pyStrip (s : String) : String :=
  (((s.toList.dropWhile pySpace).reverse.dropWhile pySpace).reverse).asString

/-- Python slicing `s[slice(a, b)]` (step 1): negative indices count from the
end, out-of-range bounds are clamped, an empty range gives `""`.  Python
slices `str` by code points, as `String.toList` does. -/
def pySlice (s : String) (a b : Int) : String :=
  let cs := s.toList
  let n : Int := cs.length
  let lo := if a < 0 then max (n + a) 0 else min a n
  let hi := if b < 0 then max (n + b) 0 else min b n
  (((cs.drop lo.toNat).take (hi - lo).toNat)).asString

/-- Python list indexing `l[i]` for `i : int`: negative indices count from
the end; anything out of range raises `IndexError`. -/
def pyIdx (l : List String) (i : Int) : Except PyErr String :=
  let n : Int := l.length
  let j := if i < 0 then n + i else i
  if 0 ≤ j ∧ j < n then Except.ok (l.getD j.toNat ("")) else Except.error PyErr.indexError

/-- Is `pat` a prefix of `l`? -/
def isPrefx : List Char → List Char → Bool
  | [], _ => true
  | _ :: _, [] => false
  | a :: as, b :: bs => (a = b) && isPrefx as bs

/-- Does `pat` occur as a contiguous substring of `hay`?  (Python `pat in hay`
for strings.) -/
def hasInfx : List Char → List Char → Bool
  | [], pat => pat.isEmpty
  | c :: t, pat => isPrefx pat (c :: t) || hasInfx t pat

/-! ## Numeric rendering

Python renders numbers with `str` and with the `"{:.2%}"` format spec.
JSON numbers are modelled as rationals: integral values render like Python
ints, terminating decimals like the shortest float repr of an exactly
representable decimal.  No claim depends on the rendering of a
non-terminating decimal. -/

/-- Smallest `k ≤ 64` with `q * 10^k` integral, if any. -/
def decExponent (q : ℚ) : Option Nat :=
  (List.range 65).find? fun k => (q * (10 : ℚ) ^ k).den = 1

/-- Model of Python `str` on a JSON-decoded number. -/
def pyStrNum (q : ℚ) : String :=
  if q.den = 1 then toString q.num
  else
    match decExponent q with
    | some k =>
      let m := (q * (10 : ℚ) ^ k).num
      let a := m.natAbs
      let ipart := a / 10 ^ k
      let fdigits := Nat.toDigits 10 (a % 10 ^ k)
      let pad := List.replicate (k - fdigits.length) '0'
      (if m < 0 then ("-") else ("")) ++ toString ipart ++ (".") ++ (pad ++ fdigits).asString
    | none => toString q.num ++ ("/") ++ toString q.den

/-- Round to nearest integer, ties to even (Python float formatting). -/
def roundHalfEven (x : ℚ) : Int :=
  let f := Rat.floor x
  let r := x - (f : ℚ)
  if r < 1/2 then f
  else if 1/2 < r then f + 1
  else if f % 2 = 0 then f else f + 1

/-- Model of Python `"{:.2%}".format(q)` for a number `q`: `q * 100`
rendered with exactly two decimal digits and a trailing percent sign. -/
def formatPct (q : ℚ) : String :=
  let m := roundHalfEven (q * 10000)
  let a := m.natAbs
  let ipart := a / 100
  let frac := a % 100
  (if m < 0 then ("-") else ("")) ++ toString ipart ++ (".") ++
    (if frac < 10 then ("0") ++ toString frac else toString frac) ++ ("%")

/-! ## JSON values

`JVal` models a decoded JSON document (`response.json()`); an object is an
association list with distinct keys, as a decoded Python dict has. -/

inductive JVal where
  | jstr (s : String)
  | jnum (q : ℚ)
  | jarr (xs : List JVal)
  | jobj (kvs : List (String × JVal))

/-- Python truthiness of a JSON-decoded value (`if err_json:`). -/
def jTruthy : JVal → Bool
  | JVal.jstr s => s ≠ ""
  | JVal.jnum q => q ≠ 0
  | JVal.jarr xs => !xs.isEmpty
  | JVal.jobj kvs => !kvs.isEmpty

/-- Python `k in j` for a string `k` and a JSON-decoded `j`: key membership
for dicts, element equality for lists (a string only equals a string),
substring test for strings, `TypeError` for numbers. -/
def pyContains (j : JVal) (k : String) : Except PyErr Bool :=
  match j with
  | JVal.jobj kvs => Except.ok ((List.lookup k kvs).isSome)
  | JVal.jarr xs => Except.ok (xs.any fun v => match v with | JVal.jstr t => t = k | _ => false)
  | JVal.jstr s => Except.ok (hasInfx s.toList k.toList)
  | JVal.jnum _ => Except.error PyErr.typeError

mutual
/-- Model of Python `repr` on a JSON-decoded value (strings get single
quotes; containers render their elements with `repr`). -/
def pyReprJ : JVal → String
  | JVal.jstr s => ("'") ++ s ++ ("'")
  | JVal.jnum q => pyStrNum q
  | JVal.jarr xs => ("[") ++ pyReprList xs ++ ("]")
  | JVal.jobj kvs => ("\x7b") ++ pyReprObj kvs ++ ("\x7d")

def pyReprList : List JVal → String
  | [] => ""
  | [v] => pyReprJ v
  | v :: rest => pyReprJ v ++ (", ") ++ pyReprList rest

def pyReprObj : List (String × JVal) → String
  | [] => ""
  | [(k, v)] => ("'") ++ k ++ ("': ") ++ pyReprJ v
  | (k, v) :: rest => ("'") ++ k ++ ("': ") ++ pyReprJ v ++ (", ") ++ pyReprObj rest
end

/-- Model of Python `str` on a JSON-decoded value (`f"Error: {...}"`). -/
def pyStrJ : JVal → String
  | JVal.jstr s => s
  | v => pyReprJ v

/-- The string-escaping of `json.dumps` (modelled for ASCII-safe content;
`ensure_ascii` escaping of non-ASCII characters is not needed by any claim). -/
def jsonEscape (s : String) : String :=
  String.join (s.toList.map fun c =>
    if c = '"' then ("\\\"")
    else if c = '\\' then ("\\\\")
    else if c = '\n' then ("\\n")
    else if c = '\t' then ("\\t")
    else if c = '\r' then ("\\r")
    else String.singleton c)

mutual
/-- Model of Python `json.dumps` with default separators. -/
def dumpsV : JVal → String
  | JVal.jstr s => ("\"") ++ jsonEscape s ++ ("\"")
  | JVal.jnum q => pyStrNum q
  | JVal.jarr xs => ("[") ++ dumpsList xs ++ ("]")
  | JVal.jobj kvs => ("\x7b") ++ dumpsObj kvs ++ ("\x7d")

def dumpsList : List JVal → String
  | [] => ""
  | [v] => dumpsV v
  | v :: rest => dumpsV v ++ (", ") ++ dumpsList rest

def dumpsObj : List (String × JVal) → String
  | [] => ""
  | [(k, v)] => ("\"") ++ jsonEscape k ++ ("\": ") ++ dumpsV v
  | (k, v) :: rest => ("\"") ++ jsonEscape k ++ ("\": ") ++ dumpsV v ++ (", ") ++ dumpsObj rest
end

/-! ## The service response shape

A GATE Cloud annotation is a JSON object whose `indices` key holds a
two-element offset array and whose remaining keys are the annotation's
features (`{"indices": [0, 4], "gender": "male", ...}`).  The code accesses
it as a plain dict: `feature in ann` and `ann[feature]` see the `indices`
key exactly like any feature key, and `ann["indices"]` is the offset pair. -/

/-- A value stored under a key of an annotation dict. -/
inductive FVal where
  | fstr (s : String)
  | fnum (q : ℚ)
  | fidx (a b : Int)
  deriving DecidableEq, Repr

/-- One annotation: the `indices` pair plus the feature keys. -/
structure Annotation where
  indices : Int × Int
  features : List (String × FVal)
  deriving DecidableEq, Repr

/-- Python `k in ann` on the annotation dict (which includes `indices`). -/
def annHas (a : Annotation) (k : String) : Bool :=
  k = ("indices") || (List.lookup k a.features).isSome

/-- Python `ann[k]` on the annotation dict, for a key `annHas` accepts. -/
def annGet (a : Annotation) (k : String) : FVal :=
  if k = ("indices") then FVal.fidx a.indices.1 a.indices.2
  else (List.lookup k a.features).getD (FVal.fstr (""))

/-- A decoded `200` response containing both a `text` and an `entities` key
(the shape `CsvProcessor.run` requires before extracting). -/
structure SR where
  text : String
  entities : List (String × List Annotation)
  deriving DecidableEq, Repr

/-- `response["entities"].get(ann_type, [])`. -/
def entGet (resp : SR) (t : String) : List Annotation :=
  (List.lookup t resp.entities).getD []

/-- Python `str(ann[k])` on an annotation dict value (the pair under
`indices` prints like the Python list `[a, b]`). -/
def pyStrF : FVal → String
  | FVal.fstr s => s
  | FVal.fnum q => pyStrNum q
  | FVal.fidx a b => ("[") ++ toString a ++ (", ") ++ toString b ++ ("]")

/-- Python `"{:.2%}".format(ann[k])`: formats a number, raises `ValueError`
for a string and `TypeError` for a list value. -/
def pyFormatPctF : FVal → Except PyErr String
  | FVal.fnum q => Except.ok (formatPct q)
  | FVal.fstr _ => Except.error PyErr.valueError
  | FVal.fidx _ _ => Except.error PyErr.typeError

/-! ## `unescape_lt_amp` (lines 19-34)

`lt_amp_re = re.compile(r"&(amp|lt);")`, substituted left to right. -/

/-- The scan of `lt_amp_re.sub(lt_amp_replacement, s)` over the character
list: at each position replace a leading `&amp;`/`&lt;` match, otherwise
copy one character. -/
def unescapeL : List Char → List Char
  | '&' :: 'a' :: 'm' :: 'p' :: ';' :: rest => '&' :: unescapeL rest
  | '&' :: 'l' :: 't' :: ';' :: rest => '<' :: unescapeL rest
  | c :: rest => c :: unescapeL rest
  | [] => []

/-- `unescape_lt_amp` (line 33). -/
def unescape_lt_amp (s : String) : String :=
  (unescapeL s.toList).asString

/-- `text_under` (line 37): the unescaped text slice under every annotation
of the type, joined with the separator.  On a well-shaped response this
function cannot raise. -/
def text_under (ann_type : String) (separator : String) (response : SR) : String :=
  String.intercalate separator
    ((entGet response ann_type).map fun it =>
      unescape_lt_amp (pySlice response.text it.indices.1 it.indices.2))

/-! ## The template engine (lines 17, 46-69)

`template_re = re.compile(r"\[(.*?)\]|(\w[\w-]*)(?:\s+(as\s+%))?")` and
`template_re.sub(replacement, template)`.  The scan below mirrors the
regex engine: at each position try the bracketed-literal alternative (lazy
up to the first `]`, `.` does not cross a newline), then the word
alternative (greedy word run, then the optional `\s+(as\s+%)` group, which
matches all-or-nothing), otherwise copy one character. -/

/-- One unit of the `re.sub` scan: a span copied verbatim, a matched
bracketed literal (`m.group(1)`), or a matched feature reference
(`m.group(2)` with the optional modifier `m.group(3)`). -/
inductive TTok where
  | copy (c : Char)
  | lit (s : String)
  | feat (name : String) (modifier : Option String)
  deriving DecidableEq, Repr

/-- Match the optional `(?:\s+(as\s+%))?` group at the start of `cs`:
returns the text of group 3 (`as` + the inner whitespace + `%`) and the
number of characters consumed.  `\s+` is committed (a shorter match would
leave a space where a literal is required), so the group matches
all-or-nothing with maximal whitespace runs. -/
def modSplit (cs : List Char) : Option (String × Nat) :=
  let ws1 := cs.takeWhile pySpace
  if ws1.isEmpty then none else
  match cs.drop ws1.length with
  | 'a' :: 's' :: r2 =>
    let ws2 := r2.takeWhile pySpace
    if ws2.isEmpty then none else
    match r2.drop ws2.length with
    | '%' :: _ => some ((("as") ++ ws2.asString ++ ("%")), ws1.length + 2 + ws2.length + 1)
    | _ => none
  | _ => none

/-- The left-to-right non-overlapping scan of `template_re` over the
template. -/
def scanTemplate : List Char → List TTok
  | [] => []
  | c :: rest =>
    if c = '[' then
      -- first alternative: `\[(.*?)\]`, lazily up to the first `]`;
      -- `.` does not match a newline, so a newline before `]` kills it
      let pre := rest.takeWhile fun d => !(d = ']') && !(d = '\n')
      match rest.drop pre.length with
      | ']' :: _ => TTok.lit pre.asString :: scanTemplate (rest.drop (pre.length + 1))
      | _ => TTok.copy '[' :: scanTemplate rest
    else if wordChar c then
      -- second alternative: `(\w[\w-]*)` greedy, then the optional modifier
      let wrest := rest.takeWhile fun d => wordChar d || d = '-'
      let r2 := rest.drop wrest.length
      match modSplit r2 with
      | some (m, k) =>
          TTok.feat ((c :: wrest).asString) (some m) :: scanTemplate ((rest.drop wrest.length).drop k)
      | none => TTok.feat ((c :: wrest).asString) none :: scanTemplate r2
    else
      TTok.copy c :: scanTemplate rest
termination_by cs => cs.length
decreasing_by
  all_goals simp [List.length_drop]
  all_goals omega

/-- The `replacement` closure of `response_to_column` (lines 51-63), applied
to one scan unit.  `if literal:` is a truthiness test: the empty literal of
the template `[]` falls through with `feature = None`, which is not `"text"`
and not a dict key, producing `"None not found"`. -/
def replacement (response : SR) (ann : Annotation) : TTok → Except PyErr String
  | TTok.copy c => Except.ok (String.singleton c)
  | TTok.lit s =>
      if s ≠ "" then Except.ok s
      else Except.ok ("None not found")
  | TTok.feat feature modifier =>
      if feature = ("text") then
        Except.ok (unescape_lt_amp (pySlice response.text ann.indices.1 ann.indices.2))
      else if annHas ann feature then
        if modifier = some ("as %") then pyFormatPctF (annGet ann feature)
        else Except.ok (pyStrF (annGet ann feature))
      else
        Except.ok (feature ++ (" not found"))

/-- `template_re.sub(replacement, template)`: render every scan unit and
concatenate. -/
def evalTemplate (response : SR) (ann : Annotation) (template : String) : Except PyErr String := do
  let parts ← (scanTemplate template.toList).mapM (replacement response ann)
  return String.join parts

/-- `response_to_column` (line 46): apply the template to every annotation
of the type and join with the separator. -/
def response_to_column (ann_type : String) (template : String) (separator : String)
    (response : SR) : Except PyErr String := do
  let chunks ← (entGet response ann_type).mapM fun ann => evalTemplate response ann template
  return String.intercalate separator chunks

/-! ## The column-specification compiler, `output_function` (lines 72-111) -/

/-- Match of `ann_type_re = re.compile(r"^(\S+)(?:\s+(.*))?$")` against an
already-stripped string: group 1 is the maximal leading `\S+` run, group 2
(after a maximal `\s+` run) must be newline-free for `(.*)$` to reach the
end.  (A stripped string never ends in whitespace, so the `$`-before-final-
newline case cannot arise, and the rest group is never empty when present.)
`None` models `.match` returning no match, on which `.groups()` raises. -/
def annTypeMatch (s : String) : Option (String × Option String) :=
  let cs := s.toList
  let w := cs.takeWhile fun c => !pySpace c
  if w.isEmpty then none else
  let r := cs.drop w.length
  if r.isEmpty then some (w.asString, none) else
  let ws := r.takeWhile pySpace
  let rem := r.drop ws.length
  if rem.any (· = '\n') then none else some (w.asString, some rem.asString)

/-- The annotation type used by the compiled function: the part of group 1
after the first colon when one is present (`ann_type[ann_type.index(":") + 1:]`),
otherwise group 1 itself. -/
def annTypeEff (t0 : String) : String :=
  if t0.toList.contains ':' then (((t0.toList.dropWhile fun c => !(c = ':')).drop 1)).asString
  else t0

/-- `output_function` (line 72): compile one column definition into the
annotation selector and the extraction function.  `none` models the crash
on a definition `ann_type_re` cannot match.  The `rest = ""` case mirrors
the falsy `not rest` test, although a stripped input can never produce it. -/
def output_function (col : String) (type_to_sel : List (String × String)) :
    Option (String × (SR → Except PyErr String)) :=
  match annTypeMatch (pyStrip col) with
  | none => none
  | some (t0, rest) =>
    let ann_selector :=
      if t0.toList.contains ':' then t0
      else match List.lookup t0 type_to_sel with
        | some s => s
        | none => (":") ++ t0
    let ann_type := annTypeEff t0
    let fn : SR → Except PyErr String :=
      match rest with
      | none => fun resp => Except.ok (text_under ann_type (";") resp)
      | some r =>
        if r = ("") || r = ("text") then fun resp => Except.ok (text_under ann_type (";") resp)
        else if r = ("present?") then
          -- str(1 if len(...) > 0 else 0)
          fun resp => Except.ok (if 0 < (entGet resp ann_type).length then ("1") else ("0"))
        else if r = ("#count") then fun resp => Except.ok (toString (entGet resp ann_type).length)
        else response_to_column ann_type r (";")
    some (ann_selector, fn)

/-! ## The rate limiter, `CsvProcessor.handle_rate_limit` (lines 180-221)

Response headers are modelled at parse granularity: absent, present but
failing the numeric parse, or present with the parsed value.  A missing
key raises `KeyError` from `response.headers[...]`, which the source's
`except ValueError` does not catch. -/

/-- A header read with `float(...)` (`retry-after`). -/
inductive FHdr where
  | absent
  | malformed
  | num (q : ℚ)
  deriving DecidableEq, Repr

/-- A header read with `int(...)` (`x-gate-rate-limit-calls` / `-reset`). -/
inductive IHdr where
  | absent
  | malformed
  | num (n : Int)
  deriving DecidableEq, Repr

/-- The processor's mutable rate-limit state:
`self.prev_rate_limit_remaining` (initially `-1`) and
`self.request_start_time` (initially `None`). -/
structure RLState where
  prev_rate_limit_remaining : Int
  request_start_time : Option ℚ
  deriving DecidableEq, Repr

/-- The decoded body of an HTTP response, at the granularity `run` needs:
a JSON object carrying both a `text` and an `entities` key in the expected
shape, any other JSON document, or a body `response.json()` cannot decode
(whose raw text is `response.text`). -/
inductive RBody where
  | goodJson (sr : SR)
  | otherJson (j : JVal)
  | notJson (raw : String)

/-- An HTTP response: status code, decoded body, and the three headers the
code reads. -/
structure HResp where
  status : Nat
  body : RBody
  retryAfter : FHdr
  rlCalls : IHdr
  rlReset : IHdr

/-- `handle_rate_limit` (line 180): returns the next wait and the updated
rate-limit state, or the exception the Python code would raise.  `now` is
the value `time.perf_counter()` returns during the call.  Mirrors the
source line by line:

* status 429/402 with a `retry-after` header present: return the parsed
  duration, state untouched (a malformed value makes `float` raise);
* `int(...)` of either counter header: an absent key raises `KeyError`
  (uncaught), a malformed value raises `ValueError`, caught, returning 0;
* otherwise the pacing formula, with the division raising
  `ZeroDivisionError` when the remaining count is 0 (the Python state
  update on line 208 precedes the raise but the run is crashing anyway);
* `if self.request_start_time:` is a truthiness test, so a recorded start
  time of exactly 0 is skipped like `None`;
* negative results clamp to 0. -/
def handle_rate_limit (st : RLState) (r : HResp) (now : ℚ) : Except PyErr (ℚ × RLState) :=
  if (r.status = 429 ∨ r.status = 402) ∧ r.retryAfter ≠ FHdr.absent then
    match r.retryAfter with
    | FHdr.num q => Except.ok (q, st)
    | _ => Except.error PyErr.valueError
  else
    match r.rlCalls with
    | IHdr.absent => Except.error PyErr.keyError
    | IHdr.malformed => Except.ok (0, st)
    | IHdr.num calls =>
      match r.rlReset with
      | IHdr.absent => Except.error PyErr.keyError
      | IHdr.malformed => Except.ok (0, st)
      | IHdr.num reset =>
        let used : Int :=
          if 0 < st.prev_rate_limit_remaining ∧ st.prev_rate_limit_remaining < calls
          then calls - st.prev_rate_limit_remaining else 1
        if calls = 0 then Except.error PyErr.zeroDivisionError
        else
          let w : ℚ := ((reset : ℚ) / (calls : ℚ)) * (used : ℚ) * (21/20)
          let w2 : ℚ :=
            match st.request_start_time with
            | some t => if t ≠ 0 then w + (t - now) else w
            | none => w
          Except.ok (if 0 < w2 then w2 else 0,
                     { prev_rate_limit_remaining := calls,
                       request_start_time := st.request_start_time })

/-! ## The row pipeline, `CsvProcessor.run` (lines 223-312)

The network is an oracle script: a list of events, one consumed per
`session.post`.  An event is either a response or a
`requests.RequestException` (which includes the `JSONDecodeError` a 200
body that is not JSON raises).  `response` is a plain Python local that
survives loop iterations: after a transport exception it still holds the
previous response, and on the very first request it is unbound
(`NameError`). -/

/-- The JSON value a feature slot decodes from. -/
def fvalToJ : FVal → JVal
  | FVal.fstr s => JVal.jstr s
  | FVal.fnum q => JVal.jnum q
  | FVal.fidx x y => JVal.jarr [JVal.jnum (x : ℚ), JVal.jnum (y : ℚ)]

/-- The JSON object an annotation decodes from. -/
def annToJ (a : Annotation) : JVal :=
  JVal.jobj ((("indices"),
      JVal.jarr [JVal.jnum (a.indices.1 : ℚ), JVal.jnum (a.indices.2 : ℚ)]) ::
    a.features.map fun f => (f.1, fvalToJ f.2))

/-- The JSON document a well-shaped response decodes from (used when a
non-200 error payload happens to have the success shape). -/
def srToJVal (sr : SR) : JVal :=
  JVal.jobj [(("text"), JVal.jstr sr.text),
             (("entities"), JVal.jobj (sr.entities.map fun kv =>
               (kv.1, JVal.jarr (kv.2.map annToJ))))]

/-- One network event: a response (taking `dur` seconds of wall clock) or a
raised `requests.RequestException` with its message. -/
inductive NetEvent where
  | resp (r : HResp) (dur : ℚ)
  | exc (msg : String)

/-- The run configuration compiled in `__init__`: the text column index,
the copy column indices and the compiled extraction functions. -/
structure Config where
  textColumn : Int
  copyColumns : List Int
  outputFns : List (SR → Except PyErr String)

/-- The mutable state threaded through the row loop:
`rate_limit_failures`, `wait_before_next_call`, the rate limiter state,
the `response` local (possibly stale), and the clock. -/
structure GState where
  rlFailures : Nat
  wait : ℚ
  rl : RLState
  lastResp : Option HResp
  now : ℚ

/-- The state at the top of `run`: no failures, no wait, remaining calls
unknown (`-1`), no request issued yet, clock at `t0`. -/
def initG (t0 : ℚ) : GState :=
  { rlFailures := 0, wait := 0, rl := { prev_rate_limit_remaining := -1, request_start_time := none },
    lastResp := none, now := t0 }

/-- Outcome of the inner `while True` loop of one row. -/
inductive LoopOut where
  | broke (results : List String) (errJson : Option JVal) (g : GState) (rest : List NetEvent)
  | fatal (rest : List NetEvent)
  | crash (e : PyErr) (rest : List NetEvent)
  | noEvents

/-- `str(e)` for the `requests.JSONDecodeError` raised by `response.json()`
on an undecodable body (opaque model: the claims never inspect it). -/
def jsonDecodeMsg (_raw : String) : String :=
  "Expecting value: line 1 column 1 (char 0)"

/-- The inner `while True` loop (lines 260-296) for one row.  Each
iteration recomputes the copied columns, sleeps `wait`, records the
request start time, consumes one event, and dispatches on the status:

* 200 with a `text`+`entities` JSON object: append `"Success"` and every
  extraction value, break (an extraction error crashes the run);
* 200 with other JSON: no branch breaks, so the loop resends — except
  that `"text" in resp_json` itself can raise, and a non-dict document
  that passes both membership tests makes every extraction function raise
  `TypeError` at `response["entities"]` (with no functions the row still
  breaks as a success);
* 200 with an undecodable body: `response.json()` raises
  `requests.JSONDecodeError ⊆ RequestException`, caught: break with an
  error message;
* 429/402: count the hit, `sys.exit(1)` past five, otherwise take the
  wait from `handle_rate_limit` and loop;
* other status: decode the error payload (falling back to
  `{"message": response.text}`), break;
* a transport exception: break with its message (no response obtained). -/
def rowLoop (cfg : Config) (g : GState) (row : List String) : List NetEvent → LoopOut
  | [] =>
    -- the copied cells (line 261) are computed before the request is sent
    (match cfg.copyColumns.mapM (pyIdx row) with
     | Except.error e => LoopOut.crash e []
     | Except.ok _ => LoopOut.noEvents)
  | ev :: rest =>
    match cfg.copyColumns.mapM (pyIdx row) with
    | Except.error e => LoopOut.crash e (ev :: rest)
    | Except.ok copied =>
      match ev with
      | NetEvent.exc msg =>
          let now1 := g.now + g.wait
          let g1 := { g with now := now1,
                             rl := { g.rl with request_start_time := some now1 } }
          LoopOut.broke copied (some (JVal.jobj [(("message"), JVal.jstr msg)])) g1 rest
      | NetEvent.resp r dur =>
          let now1 := g.now + g.wait
          let now2 := now1 + dur
          let g1 := { g with now := now2,
                             rl := { g.rl with request_start_time := some now1 },
                             lastResp := some r }
          if r.status = 200 then
            match r.body with
            | RBody.goodJson sr =>
                match cfg.outputFns.mapM (fun f => f sr) with
                | Except.error e => LoopOut.crash e rest
                | Except.ok derived => LoopOut.broke (copied ++ ("Success") :: derived) none g1 rest
            | RBody.otherJson j =>
                (match pyContains j ("text") with
                 | Except.error e => LoopOut.crash e rest
                 | Except.ok false => rowLoop cfg g1 row rest
                 | Except.ok true =>
                   match pyContains j ("entities") with
                   | Except.error e => LoopOut.crash e rest
                   | Except.ok false => rowLoop cfg g1 row rest
                   | Except.ok true =>
                     -- only a non-object document reaches here; every
                     -- extraction function raises TypeError on it
                     match cfg.outputFns with
                     | [] => LoopOut.broke (copied ++ [("Success")]) none g1 rest
                     | _ => LoopOut.crash PyErr.typeError rest)
            | RBody.notJson raw =>
                LoopOut.broke copied
                  (some (JVal.jobj [(("message"), JVal.jstr (jsonDecodeMsg raw))])) g1 rest
          else if r.status = 429 ∨ r.status = 402 then
            let fails := g1.rlFailures + 1
            if 5 < fails then LoopOut.fatal rest
            else
              match handle_rate_limit g1.rl r now2 with
              | Except.error e => LoopOut.crash e rest
              | Except.ok (w, rl2) =>
                  rowLoop cfg { g1 with rlFailures := fails, wait := w, rl := rl2 } row rest
          else
            let ej : JVal :=
              match r.body with
              | RBody.goodJson sr => srToJVal sr
              | RBody.otherJson j => j
              | RBody.notJson raw => JVal.jobj [(("message"), JVal.jstr raw)]
            LoopOut.broke copied (some ej) g1 rest

/-- Lines 300-304: turn the terminal `err_json` into the status cell.
`if err_json:` is a truthiness test — a falsy payload (such as the empty
object) appends nothing at all.  A payload passing `"message" in err_json`
without being a dict raises at the subscript. -/
def errLine (j : JVal) : Except PyErr (Option String) :=
  if jTruthy j then
    match pyContains j ("message") with
    | Except.error e => Except.error e
    | Except.ok true =>
      match j with
      | JVal.jobj kvs =>
          Except.ok (some (("Error: ") ++ pyStrJ ((List.lookup ("message") kvs).getD (JVal.jstr ("")))))
      | _ => Except.error PyErr.typeError
    | Except.ok false => Except.ok (some (("Error: ") ++ dumpsV j))
  else Except.ok none

/-- Outcome of one full row iteration (lines 257-306). -/
inductive StepOut where
  | wrote (rec : List String) (g : GState) (rest : List NetEvent)
  | fatal (rest : List NetEvent)
  | crash (e : PyErr) (rest : List NetEvent)
  | noEvents

/-- One iteration of the outer `for` loop: fetch the text cell, run the
inner loop, then line 298's unconditional `handle_rate_limit(response)` —
a `NameError` if no request ever completed — then append the error status
if any and write the record. -/
def procRow (cfg : Config) (g : GState) (row : List String) (evts : List NetEvent) : StepOut :=
  match pyIdx row cfg.textColumn with
  | Except.error e => StepOut.crash e evts
  | Except.ok _text =>
    match rowLoop cfg g row evts with
    | LoopOut.fatal rest => StepOut.fatal rest
    | LoopOut.crash e rest => StepOut.crash e rest
    | LoopOut.noEvents => StepOut.noEvents
    | LoopOut.broke results errJson g1 rest =>
      match g1.lastResp with
      | none => StepOut.crash PyErr.nameError rest
      | some r =>
        match handle_rate_limit g1.rl r g1.now with
        | Except.error e => StepOut.crash e rest
        | Except.ok (w, rl2) =>
          let g2 := { g1 with wait := w, rl := rl2 }
          match errJson with
          | none => StepOut.wrote results g2 rest
          | some j =>
            match errLine j with
            | Except.error e => StepOut.crash e rest
            | Except.ok none => StepOut.wrote results g2 rest
            | Except.ok (some line) => StepOut.wrote (results ++ [line]) g2 rest

/-- Result of a whole run: the records written (in order) and the
unconsumed tail of the event script.  `fatal` is `sys.exit(1)`, `crash` an
uncaught exception, `stuck` the model artifact of the script running out
mid-row. -/
inductive RunResult where
  | done (out : List (List String)) (rest : List NetEvent)
  | fatal (out : List (List String)) (rest : List NetEvent)
  | crash (e : PyErr) (out : List (List String)) (rest : List NetEvent)
  | stuck (out : List (List String)) (rest : List NetEvent)

/-- The outer row loop of `run` (line 257): one `procRow` per input row,
records accumulated in order. -/
def runRows (cfg : Config) (g : GState) (rows : List (List String)) (evts : List NetEvent) :
    RunResult :=
  match rows with
  | [] => RunResult.done [] evts
  | row :: more =>
    match procRow cfg g row evts with
    | StepOut.wrote rec g2 rest =>
      (match runRows cfg g2 more rest with
       | RunResult.done out r2 => RunResult.done (rec :: out) r2
       | RunResult.fatal out r2 => RunResult.fatal (rec :: out) r2
       | RunResult.crash e out r2 => RunResult.crash e (rec :: out) r2
       | RunResult.stuck out r2 => RunResult.stuck (rec :: out) r2)
    | StepOut.fatal rest => RunResult.fatal [] rest
    | StepOut.crash e rest => RunResult.crash e [] rest
    | StepOut.noEvents => RunResult.stuck [] []

/-! ## Projections and counting helpers for the run-level theorems -/

/-- The records a run wrote. -/
def runOut : RunResult → List (List String)
  | RunResult.done out _ => out
  | RunResult.fatal out _ => out
  | RunResult.crash _ out _ => out
  | RunResult.stuck out _ => out

/-- The unconsumed tail of the event script. -/
def runRest : RunResult → List NetEvent
  | RunResult.done _ r => r
  | RunResult.fatal _ r => r
  | RunResult.crash _ _ r => r
  | RunResult.stuck _ r => r

/-- Did the run finish all rows normally? -/
def runDone : RunResult → Bool
  | RunResult.done _ _ => true
  | _ => false

/-- Did the run abort with `sys.exit(1)`? -/
def runFatal : RunResult → Bool
  | RunResult.fatal _ _ => true
  | _ => false

/-- Is this event a rate-limited response (HTTP 429 or 402)? -/
def isRLev : NetEvent → Bool
  | NetEvent.resp r _ => r.status = 429 || r.status = 402
  | NetEvent.exc _ => false

/-- Number of rate-limited responses in an event list. -/
def countRL (evts : List NetEvent) : Nat :=
  evts.countP isRLev

/-- The `response` local after consuming `evts`, starting from `init`. -/
def lastRespSeen (evts : List NetEvent) (init : Option HResp) : Option HResp :=
  evts.foldl (fun acc e => match e with | NetEvent.resp r _ => some r | NetEvent.exc _ => acc) init

/-- Shape of one written record for a row, as established by the pipeline:
the copied cells followed by either `"Success"` plus one derived value per
extraction function, or a single `"Error: ..."` status, or nothing (the
falsy-error-payload case). -/
def recShape (cfg : Config) (row : List String) (rec : List String) : Prop :=
  ∃ copied, cfg.copyColumns.mapM (pyIdx row) = Except.ok copied ∧
    ((∃ derived, derived.length = cfg.outputFns.length ∧ rec = copied ++ ("Success") :: derived)
     ∨ (∃ tl, rec = copied ++ [("Error: ") ++ tl])
     ∨ rec = copied)

/-! ## Concrete inputs used by witnesses and counterexamples -/

/-- The rate-limit state at processor start. -/
def stInit : RLState := { prev_rate_limit_remaining := -1, request_start_time := none }

/-- A 429 response carrying `retry-after: 30` along with (ignored) numeric
counter headers. -/
def respRetry : HResp :=
  { status := 429, body := RBody.otherJson (JVal.jobj []), retryAfter := FHdr.num 30,
    rlCalls := IHdr.num 7, rlReset := IHdr.num 99 }

/-- A plain 200 response reporting 10 remaining calls and 100 seconds to
reset. -/
def respPacing : HResp :=
  { status := 200, body := RBody.otherJson (JVal.jobj []), retryAfter := FHdr.absent,
    rlCalls := IHdr.num 10, rlReset := IHdr.num 100 }

/-- A 200 response whose remaining-calls header parses to 0. -/
def respZeroRemaining : HResp :=
  { status := 200, body := RBody.otherJson (JVal.jobj []), retryAfter := FHdr.absent,
    rlCalls := IHdr.num 0, rlReset := IHdr.num 60 }

/-- A 200 response with both rate-limit headers missing. -/
def respNoHeaders : HResp :=
  { status := 200, body := RBody.otherJson (JVal.jobj []), retryAfter := FHdr.absent,
    rlCalls := IHdr.absent, rlReset := IHdr.absent }

/-- A 200 response whose remaining-calls header is present but not numeric. -/
def respBadCalls : HResp :=
  { status := 200, body := RBody.otherJson (JVal.jobj []), retryAfter := FHdr.absent,
    rlCalls := IHdr.malformed, rlReset := IHdr.num 60 }

/-- A response whose full text is the entity-escaped string of the spec's
unescaping example, with one annotation of type `X` covering all of it. -/
def respC7 : SR :=
  { text := "A &amp; B &lt;tag&gt;",
    entities := [(("X"), [{ indices := (0, 21), features := [] }])] }

/-- An annotation whose `conf` feature is a string. -/
def annConfStr : Annotation := { indices := (0, 3), features := [(("conf"), FVal.fstr ("hi"))] }

/-- An annotation whose `conf` feature is the number `0.8532`. -/
def annConfNum : Annotation :=
  { indices := (0, 3), features := [(("conf"), FVal.fnum (8532/10000))] }

/-- A response used only as template-evaluation context. -/
def respPlain : SR := { text := "abcdef", entities := [] }

/-- A response with two `Person` annotations. -/
def respTwo : SR :=
  { text := "ab",
    entities := [(("Person"), [{ indices := (0, 1), features := [] },
                               { indices := (1, 2), features := [] }])] }

/-- The extraction function compiled from the column definition
`"Person #count"` (total by construction: the definition parses). -/
def personCountFn : SR → Except PyErr String :=
  match output_function ("Person #count") [] with
  | some p => p.2
  | none => fun _ => Except.error PyErr.typeError

/-- One compiled extraction function (text under `X`). -/
def fnX : SR → Except PyErr String := fun r => Except.ok (text_under ("X") (";") r)

/-- A run configuration: text from column 0, no copied columns, one
derived column. -/
def cfgOne : Config := { textColumn := 0, copyColumns := [], outputFns := [fnX] }

/-- A run configuration with no derived columns. -/
def cfgNil : Config := { textColumn := 0, copyColumns := [], outputFns := [] }

/-- A one-cell input row. -/
def rowHello : List String := [("hello")]

/-- A 500 error response with a JSON `message` payload and numeric counter
headers. -/
def respErr : HResp :=
  { status := 500, body := RBody.otherJson (JVal.jobj [(("message"), JVal.jstr ("boom"))]),
    retryAfter := FHdr.absent, rlCalls := IHdr.num 10, rlReset := IHdr.num 100 }

/-- A script delivering one error response instantly. -/
def evtsErr : List NetEvent := [NetEvent.resp respErr 0]

/-- The global state at the top of a run whose clock starts at 1. -/
def gBase : GState := initG 1

/-- The global state after processing `rowHello` against `evtsErr` from
`gBase`. -/
def gAfterErr : GState :=
  { rlFailures := 0, wait := 21/2,
    rl := { prev_rate_limit_remaining := 10, request_start_time := some 1 },
    lastResp := some respErr, now := 1 }

/-- A 429 response with `retry-after: 1` and no counter headers. -/
def respRL : HResp :=
  { status := 429, body := RBody.otherJson (JVal.jobj []), retryAfter := FHdr.num 1,
    rlCalls := IHdr.absent, rlReset := IHdr.absent }

/-- A script of six rate-limited responses. -/
def evtsSix : List NetEvent := List.replicate 6 (NetEvent.resp respRL 0)


/-! ## Invariant predicates for the pipeline lemmas

The consumed prefix of the event script, the rate-limit-failure counter,
the `response` local and the record shapes are related by the following
case-by-case invariants, proved below by induction on the script. -/

/-- Invariant of one inner-loop outcome, relative to the starting state
`g` and script `evts`. -/
def LoopSpec (cfg : Config) (g : GState) (row : List String) (evts : List NetEvent) :
    LoopOut → Prop
  | LoopOut.broke res ej g1 rest =>
      ∃ pre, evts = pre ++ rest ∧
        g1.rlFailures = g.rlFailures + countRL pre ∧ g1.rlFailures ≤ 5 ∧
        g1.lastResp = lastRespSeen pre g.lastResp ∧
        ∃ copied, cfg.copyColumns.mapM (pyIdx row) = Except.ok copied ∧
          ((ej = none ∧ ∃ derived, derived.length = cfg.outputFns.length ∧
              res = copied ++ ("Success") :: derived) ∨
           (res = copied ∧ ∃ jv, ej = some jv))
  | LoopOut.fatal rest =>
      ∃ pre r dur, evts = pre ++ NetEvent.resp r dur :: rest ∧
        isRLev (NetEvent.resp r dur) = true ∧
        g.rlFailures + countRL (pre ++ [NetEvent.resp r dur]) = 6
  | LoopOut.crash _ rest =>
      ∃ pre, evts = pre ++ rest ∧ g.rlFailures + countRL pre ≤ 5
  | LoopOut.noEvents => g.rlFailures + countRL evts ≤ 5

/-- Invariant of one full row iteration. -/
def StepSpec (cfg : Config) (g : GState) (row : List String) (evts : List NetEvent) :
    StepOut → Prop
  | StepOut.wrote rec g2 rest =>
      ∃ pre, evts = pre ++ rest ∧
        g2.rlFailures = g.rlFailures + countRL pre ∧ g2.rlFailures ≤ 5 ∧
        recShape cfg row rec
  | StepOut.fatal rest =>
      ∃ pre r dur, evts = pre ++ NetEvent.resp r dur :: rest ∧
        isRLev (NetEvent.resp r dur) = true ∧
        g.rlFailures + countRL (pre ++ [NetEvent.resp r dur]) = 6
  | StepOut.crash _ rest =>
      ∃ pre, evts = pre ++ rest ∧ g.rlFailures + countRL pre ≤ 5
  | StepOut.noEvents => g.rlFailures + countRL evts ≤ 5

/-- Invariant of a whole run. -/
def RunSpec (cfg : Config) (g : GState) (rows : List (List String)) (evts : List NetEvent) :
    RunResult → Prop
  | RunResult.done out rest =>
      (∃ pre, evts = pre ++ rest ∧ g.rlFailures + countRL pre ≤ 5) ∧
      List.Forall₂ (recShape cfg) rows out
  | RunResult.fatal out rest =>
      (∃ pre r dur, evts = pre ++ NetEvent.resp r dur :: rest ∧
         isRLev (NetEvent.resp r dur) = true ∧
         g.rlFailures + countRL (pre ++ [NetEvent.resp r dur]) = 6) ∧
      List.Forall₂ (recShape cfg) (rows.take out.length) out
  | RunResult.crash _ out rest =>
      (∃ pre, evts = pre ++ rest ∧ g.rlFailures + countRL pre ≤ 5) ∧
      List.Forall₂ (recShape cfg) (rows.take out.length) out
  | RunResult.stuck out rest =>
      g.rlFailures + countRL evts ≤ 5 ∧ rest = [] ∧
      List.Forall₂ (recShape cfg) (rows.take out.length) out

/-- The global state at the moment the inner loop broke (the state in
which line 298 calls `handle_rate_limit`), when it did break. -/
def rowLoopG (cfg : Config) (g : GState) (row : List String) (evts : List NetEvent) :
    Option GState :=
  match rowLoop cfg g row evts with
  | LoopOut.broke _ _ g1 _ => some g1
  | _ => none

/-- The state `rowLoopG` reports for `rowHello` against `evtsErr`: the
error response was recorded, the clock sat at 1, the limiter state still
holds the initial `-1` with the request start time stamped. -/
def gLoopErr : GState :=
  { rlFailures := 0, wait := 0,
    rl := { prev_rate_limit_remaining := -1, request_start_time := some 1 },
    lastResp := some respErr, now := 1 }

/-! # Theorems -/

/-! ## Rate limiter claims -/

/-- C3: for every response with status 429 or 402 that carries a
retry-after duration, `handle_rate_limit` returns exactly that duration,
regardless of any other headers, and leaves the rate-limit state's
previous-remaining-calls tracking unchanged (the whole state is returned
as it was). -/
theorem claim_c3 (st : RLState) (now : ℚ) (r : HResp) (q : ℚ)
    (hs : r.status = 429 ∨ r.status = 402) (hra : r.retryAfter = FHdr.num q) :
    handle_rate_limit st r now = Except.ok (q, st) := by
  unfold handle_rate_limit
  rw [if_pos ⟨hs, by rw [hra]; exact fun h => by cases h⟩, hra]

/-- Witness for C3: a 429 response with retry-after `30` (and unrelated
numeric counter headers) yields a wait of exactly `30.0`, with
`prev_rate_limit_remaining` untouched. -/
theorem claim_c3_witness :
    handle_rate_limit stInit respRetry 5 = Except.ok ((30 : ℚ), stInit) :=
  claim_c3 stInit 5 respRetry 30 (Or.inl rfl) rfl

/-- Counterexample to C4 as stated: with the remaining-call-count header
absent (and no retry-after), `handle_rate_limit` does not return 0 — the
`response.headers[...]` lookup raises `KeyError`, which the code's
`except ValueError` does not catch. -/
theorem claim_c4_counterexample :
    handle_rate_limit stInit respNoHeaders 0 = Except.error PyErr.keyError ∧
    (Except.error PyErr.keyError : Except PyErr (ℚ × RLState)) ≠ Except.ok (0, stInit) := by
  decide

/-- C4 (amended): for a response that is not a 429/402-with-retry-after,
a remaining-call-count or seconds-until-reset header that is present but
non-numeric makes `handle_rate_limit` return 0 with the state unchanged;
an absent header instead raises `KeyError` (the call fails). -/
theorem claim_c4 (st : RLState) (now : ℚ) (r : HResp)
    (hng : ¬ ((r.status = 429 ∨ r.status = 402) ∧ r.retryAfter ≠ FHdr.absent)) :
    (r.rlCalls = IHdr.malformed → handle_rate_limit st r now = Except.ok (0, st)) ∧
    (r.rlCalls = IHdr.absent → handle_rate_limit st r now = Except.error PyErr.keyError) ∧
    (∀ n, r.rlCalls = IHdr.num n → r.rlReset = IHdr.malformed →
       handle_rate_limit st r now = Except.ok (0, st)) ∧
    (∀ n, r.rlCalls = IHdr.num n → r.rlReset = IHdr.absent →
       handle_rate_limit st r now = Except.error PyErr.keyError) := by
  refine ⟨fun hc => ?_, fun hc => ?_, fun n hc hr => ?_, fun n hc hr => ?_⟩ <;>
    (unfold handle_rate_limit; rw [if_neg hng, hc]; try rw [hr])

/-- Witness for C4: a present but non-numeric remaining-calls header gives
a wait of 0; fully absent headers give `KeyError`. -/
theorem claim_c4_witness :
    handle_rate_limit stInit respBadCalls 0 = Except.ok (0, stInit) ∧
    handle_rate_limit stInit respNoHeaders 0 = Except.error PyErr.keyError :=
  ⟨(claim_c4 stInit 0 respBadCalls (by decide)).1 rfl,
   (claim_c4 stInit 0 respNoHeaders (by decide)).2.1 rfl⟩

/-- C5: when both rate-limit headers are numeric (and the response is not
a 429/402-with-retry-after, which C3 shows overrides everything, and the
remaining count is nonzero so the formula's division is defined — C10
covers the zero case), `handle_rate_limit` computes
`(seconds_until_reset / new_remaining) * used_since_last_call * 1.05`,
adds `(start time − current time)` when a nonzero request start timestamp
was recorded, clamps a negative result to zero, and stores the new
remaining count. -/
theorem claim_c5 (st : RLState) (now : ℚ) (r : HResp) (calls reset : Int)
    (hng : ¬ ((r.status = 429 ∨ r.status = 402) ∧ r.retryAfter ≠ FHdr.absent))
    (hc : r.rlCalls = IHdr.num calls) (hr : r.rlReset = IHdr.num reset) (h0 : calls ≠ 0) :
    handle_rate_limit st r now =
      (let used : Int :=
         if 0 < st.prev_rate_limit_remaining ∧ st.prev_rate_limit_remaining < calls
         then calls - st.prev_rate_limit_remaining else 1
       let w : ℚ := ((reset : ℚ) / (calls : ℚ)) * (used : ℚ) * (21/20)
       let w2 : ℚ :=
         match st.request_start_time with
         | some t => if t ≠ 0 then w + (t - now) else w
         | none => w
       Except.ok (if 0 < w2 then w2 else 0,
                  { prev_rate_limit_remaining := calls,
                    request_start_time := st.request_start_time })) := by
  unfold handle_rate_limit
  rw [if_neg hng, hc, hr]
  simp only [if_neg h0]

/-- Witness for C5: `remaining = 10`, `reset_seconds = 100`, no previous
remaining count (so `used_since_last_call = 1`) and no recorded start time
give a wait of exactly `10.5 = 100/10 * 1 * 1.05` seconds. -/
theorem claim_c5_witness :
    handle_rate_limit stInit respPacing 0 =
      Except.ok ((21/2 : ℚ), { prev_rate_limit_remaining := 10, request_start_time := none }) := by
  have h := claim_c5 stInit 0 respPacing 10 100 (by decide) rfl rfl (by decide)
  rw [h]
  simp only [stInit]
  norm_num

/-- C10: a response whose remaining-call-count header parses to 0 (and
which is not a 429/402-with-retry-after) drives the pacing computation
into the unguarded division: `handle_rate_limit` raises
`ZeroDivisionError`, so it is not total over all header values. -/
theorem claim_c10 :
    handle_rate_limit stInit respZeroRemaining 0 = Except.error PyErr.zeroDivisionError := by
  decide

/-! ## Template evaluator and compiler claims -/

/-- Counterexample to C7 as stated: the annotation text
`"A &amp; B &lt;tag&gt;"` extracted via the `text` feature renders as
`"A & B <tag&gt;"`, not `"A & B <tag>"` — `&gt;` is not one of the two
entities `unescape_lt_amp` reverses, so the claimed output is wrong. -/
theorem claim_c7_counterexample :
    text_under ("X") (";") respC7 = ("A & B <tag&gt;") ∧
    ("A & B <tag&gt;") ≠ ("A & B <tag>") := by
  decide

/-- C7 (amended): annotation text `"A &amp; B &lt;tag&gt;"` extracted via
the `text` feature renders as `"A & B <tag&gt;"`: exactly `&amp;` and
`&lt;` are reversed to `&` and `<`, and any other entity (such as `&gt;`)
is left as-is. -/
theorem claim_c7 :
    text_under ("X") (";") respC7 = ("A & B <tag&gt;") ∧
    unescape_lt_amp ("A &amp; B &lt;tag&gt;") = ("A & B <tag&gt;") := by
  decide

/-- Counterexample to C6 as stated: `conf` is a feature of the annotation,
yet evaluating the reference `conf as %` does not substitute a formatted
percentage (and does not degrade to a marker string) — the feature's value
is a string, and `"{:.2%}".format` raises `ValueError`, so evaluation
fails. -/
theorem claim_c6_counterexample :
    annHas annConfStr ("conf") = true ∧
    replacement respPlain annConfStr (TTok.feat ("conf") (some ("as %"))) =
      Except.error PyErr.valueError := by
  decide

/-- C6 (amended): a feature reference resolves in priority order: the name
`text` substitutes the response-text slice under the annotation's indices
with the `&amp;`/`&lt;` unescape; otherwise a name that is a key of the
annotation's JSON object (its features, or the `indices` entry itself)
substitutes `str(value)` — or, under the modifier `as %`, the value
formatted as a two-decimal percentage, which succeeds exactly when the
value is numeric and otherwise makes evaluation fail; otherwise the
literal `"<name> not found"` is substituted. -/
theorem claim_c6 (response : SR) (ann : Annotation) (feature : String)
    (modifier : Option String) :
    (feature = ("text") →
       replacement response ann (TTok.feat feature modifier) =
         Except.ok (unescape_lt_amp (pySlice response.text ann.indices.1 ann.indices.2))) ∧
    (feature ≠ ("text") → annHas ann feature = true → modifier = some ("as %") →
       replacement response ann (TTok.feat feature modifier) =
         pyFormatPctF (annGet ann feature)) ∧
    (feature ≠ ("text") → annHas ann feature = true → modifier ≠ some ("as %") →
       replacement response ann (TTok.feat feature modifier) =
         Except.ok (pyStrF (annGet ann feature))) ∧
    (feature ≠ ("text") → annHas ann feature = false →
       replacement response ann (TTok.feat feature modifier) =
         Except.ok (feature ++ (" not found"))) ∧
    (∀ q, annGet ann feature = FVal.fnum q →
       pyFormatPctF (annGet ann feature) = Except.ok (formatPct q)) := by
  refine ⟨fun h => ?_, fun h1 h2 h3 => ?_, fun h1 h2 h3 => ?_, fun h1 h2 => ?_,
          fun q hq => ?_⟩
  · simp only [replacement, if_pos h]
  · simp only [replacement, if_neg h1, h2, if_pos h3, if_true]
  · simp only [replacement, if_neg h1, h2, if_neg h3, if_true]
  · simp [replacement, if_neg h1, h2]
  · rw [hq]
    rfl

/-- Witness for C6: the numeric feature value `0.8532` referenced with the
modifier `as %` formats as exactly `"85.32%"`. -/
theorem claim_c6_witness :
    replacement respPlain annConfNum (TTok.feat ("conf") (some ("as %"))) =
      Except.ok (("85.32%")) := by
  have h := (claim_c6 respPlain annConfNum ("conf") (some ("as %"))).2.1
    (by decide) (by decide) rfl
  rw [h]
  with_unfolding_all decide

/-- C8: for every column definition that parses, the compiled extraction
function selected by the part after the annotation type behaves as: absent
or exactly `"text"` returns the unescaped text under every annotation of
that type, in service order, joined with `";"`; exactly `"present?"`
returns `"1"` if at least one such annotation exists and `"0"` otherwise;
exactly `"#count"` returns the decimal count (including `"0"`). -/
theorem claim_c8 (col : String) (type_to_sel : List (String × String)) (t0 : String)
    (rest : Option String) (sel : String) (fn : SR → Except PyErr String)
    (hm : annTypeMatch (pyStrip col) = some (t0, rest))
    (ho : output_function col type_to_sel = some (sel, fn)) (resp : SR) :
    ((rest = none ∨ rest = some ("text")) →
       fn resp = Except.ok (String.intercalate (";")
         ((entGet resp (annTypeEff t0)).map fun it =>
           unescape_lt_amp (pySlice resp.text it.indices.1 it.indices.2)))) ∧
    (rest = some ("present?") →
       fn resp = Except.ok (if 0 < (entGet resp (annTypeEff t0)).length then ("1") else ("0"))) ∧
    (rest = some ("#count") →
       fn resp = Except.ok (toString (entGet resp (annTypeEff t0)).length)) := by
  unfold output_function at ho
  rw [hm] at ho
  refine ⟨fun hr => ?_, fun hr => ?_, fun hr => ?_⟩
  · rcases hr with hr | hr <;> subst hr <;>
      (injection ho with hp; injection hp with _ ho2; rw [← ho2]) <;> rfl
  · subst hr
    injection ho with hp
    injection hp with _ ho2
    rw [← ho2]
    rfl
  · subst hr
    injection ho with hp
    injection hp with _ ho2
    rw [← ho2]
    rfl

/-- Witness for C8: the definition `"Person #count"` compiles to a
function that returns `"2"` on a response with two `Person` annotations. -/
theorem claim_c8_witness :
    annTypeMatch (pyStrip ("Person #count")) = some (("Person"), some ("#count")) ∧
    personCountFn respTwo = Except.ok (("2")) := by
  have hm : annTypeMatch (pyStrip ("Person #count")) = some (("Person"), some ("#count")) := by
    decide
  have ho : output_function ("Person #count") [] = some (((":Person")), personCountFn) := rfl
  have h := (claim_c8 ("Person #count") [] ("Person") (some ("#count")) ((":Person"))
    personCountFn hm ho respTwo).2.2 rfl
  exact ⟨hm, h.trans (by decide)⟩

/-! ## Helper lemmas for the pipeline -/

/-- Reduction of `Except` bind on `ok` (the monad instance is definitional). -/
theorem exBind_ok {ε α β : Type} (a : α) (f : α → Except ε β) :
    (Except.ok a >>= f) = f a := rfl

/-- Reduction of `Except` bind on `error`. -/
theorem exBind_err {ε α β : Type} (e : ε) (f : α → Except ε β) :
    ((Except.error e : Except ε α) >>= f) = Except.error e := rfl

/-- `pure` in the `Except` monad is `ok`. -/
theorem exPure {ε α : Type} (a : α) : (pure a : Except ε α) = Except.ok a := rfl

/-- `mapM` over `Except` preserves length on success. -/
theorem exceptMapM_length {α β : Type} (f : α → Except PyErr β) :
    ∀ (l : List α) (l2 : List β), l.mapM f = Except.ok l2 → l2.length = l.length := by
  intro l
  induction l with
  | nil =>
    intro l2 h
    rw [List.mapM_nil, exPure] at h
    cases h
    rfl
  | cons a t ih =>
    intro l2 h
    rw [List.mapM_cons] at h
    cases hfa : f a with
    | error e => rw [hfa, exBind_err] at h; cases h
    | ok b =>
      rw [hfa, exBind_ok] at h
      cases hft : t.mapM f with
      | error e => rw [hft, exBind_err] at h; cases h
      | ok bs =>
        rw [hft, exBind_ok, exPure] at h
        cases h
        simp [ih bs hft]

/-- A successful, non-skipped error line always begins `"Error: "`. -/
theorem errLine_some (j : JVal) (line : String) :
    errLine j = Except.ok (some line) → ∃ tl, line = ("Error: ") ++ tl := by
  intro h
  unfold errLine at h
  split at h
  · cases hc : pyContains j ("message") with
    | error e => rw [hc] at h; cases h
    | ok b =>
      rw [hc] at h
      cases b
      · cases h
        exact ⟨_, rfl⟩
      · cases j with
        | jobj kvs => cases h; exact ⟨_, rfl⟩
        | jstr s => cases h
        | jnum q => cases h
        | jarr xs => cases h
  · cases h

/-- `lastRespSeen` over an appended script. -/
theorem lastRespSeen_append (a b : List NetEvent) (i : Option HResp) :
    lastRespSeen (a ++ b) i = lastRespSeen b (lastRespSeen a i) := by
  simp [lastRespSeen, List.foldl_append]

/-- `countRL` distributes over append. -/
theorem countRL_append (a b : List NetEvent) : countRL (a ++ b) = countRL a + countRL b := by
  simp [countRL, List.countP_append]

/-- `countRL` of a cons. -/
theorem countRL_cons (e : NetEvent) (l : List NetEvent) :
    countRL (e :: l) = countRL l + (if isRLev e then 1 else 0) := by
  simp [countRL, List.countP_cons]

/-- Consuming one response event in front of a loop tail preserves the
loop invariant: the event is prepended to the consumed prefix, the
failure count grows by one exactly when the event is rate-limited, and
the `response` local becomes this response. -/
theorem LoopSpec_lift (cfg : Config) (row : List String) (g g1 : GState) (r : HResp) (dur : ℚ)
    (rest : List NetEvent) (out : LoopOut)
    (hfail : g1.rlFailures = g.rlFailures + (if isRLev (NetEvent.resp r dur) then 1 else 0))
    (hlast : g1.lastResp = some r)
    (h : LoopSpec cfg g1 row rest out) :
    LoopSpec cfg g row (NetEvent.resp r dur :: rest) out := by
  cases out with
  | broke res ej g2 rest2 =>
    obtain ⟨pre, hpre, hf, hle, hlr, hrest⟩ := h
    refine ⟨NetEvent.resp r dur :: pre, by rw [hpre, List.cons_append], ?_, hle, ?_, hrest⟩
    · rw [hf, hfail, countRL_cons]
      omega
    · rw [hlr, hlast]
      simp [lastRespSeen]
  | fatal rest2 =>
    obtain ⟨pre, r2, dur2, hpre, hrl2, hcount⟩ := h
    refine ⟨NetEvent.resp r dur :: pre, r2, dur2, by rw [hpre, List.cons_append], hrl2, ?_⟩
    rw [hfail] at hcount
    rw [List.cons_append, countRL_cons]
    omega
  | crash e rest2 =>
    obtain ⟨pre, hpre, hcount⟩ := h
    refine ⟨NetEvent.resp r dur :: pre, by rw [hpre, List.cons_append], ?_⟩
    rw [hfail] at hcount
    rw [countRL_cons]
    omega
  | noEvents =>
    have h2 : g1.rlFailures + countRL rest ≤ 5 := h
    rw [hfail] at h2
    show g.rlFailures + countRL (NetEvent.resp r dur :: rest) ≤ 5
    rw [countRL_cons]
    omega

/-- The inner-loop invariant holds for every script and every starting
state within the failure cap. -/
theorem rowLoop_spec (cfg : Config) (row : List String) :
    ∀ (evts : List NetEvent) (g : GState), g.rlFailures ≤ 5 →
      LoopSpec cfg g row evts (rowLoop cfg g row evts) := by
  intro evts
  induction evts with
  | nil =>
    intro g hk
    unfold rowLoop
    cases hc : cfg.copyColumns.mapM (pyIdx row) with
    | error e => exact ⟨[], rfl, by simpa [countRL] using hk⟩
    | ok copied => simpa [LoopSpec, countRL] using hk
  | cons ev rest ih =>
    intro g hk
    unfold rowLoop
    cases hc : cfg.copyColumns.mapM (pyIdx row) with
    | error e => exact ⟨[], rfl, by simpa [countRL] using hk⟩
    | ok copied =>
      cases ev with
      | exc msg =>
        refine ⟨[NetEvent.exc msg], rfl, by simp [countRL, isRLev], by simpa using hk,
          by simp [lastRespSeen], copied, hc, Or.inr ⟨rfl, _, rfl⟩⟩
      | resp r dur =>
        by_cases h200 : r.status = 200
        · simp only [h200, reduceIte]
          have hnoRL : isRLev (NetEvent.resp r dur) = false := by
            simp [isRLev, h200]
          cases hb : r.body with
          | goodJson sr =>
            try simp only [hb]
            cases hf : cfg.outputFns.mapM (fun f => f sr) with
            | error e =>
              try simp only [hf]
              exact ⟨[NetEvent.resp r dur], rfl, by simp [countRL, hnoRL]; omega⟩
            | ok derived =>
              try simp only [hf]
              refine ⟨[NetEvent.resp r dur], rfl, by simp [countRL, hnoRL], by simpa using hk,
                by simp [lastRespSeen], copied, hc,
                Or.inl ⟨rfl, derived, exceptMapM_length _ _ _ hf, rfl⟩⟩
          | otherJson j =>
            try simp only [hb]
            cases hct : pyContains j ("text") with
            | error e =>
              try simp only [hct]
              exact ⟨[NetEvent.resp r dur], rfl, by simp [countRL, hnoRL]; omega⟩
            | ok bt =>
              try simp only [hct]
              cases bt with
              | false =>
                exact LoopSpec_lift cfg row g _ r dur rest _ (by simp [hnoRL]) rfl
                  (ih _ (by simpa using hk))
              | true =>
                cases hce : pyContains j ("entities") with
                | error e =>
                  try simp only [hce]
                  exact ⟨[NetEvent.resp r dur], rfl, by simp [countRL, hnoRL]; omega⟩
                | ok be =>
                  try simp only [hce]
                  cases be with
                  | false =>
                    exact LoopSpec_lift cfg row g _ r dur rest _ (by simp [hnoRL]) rfl
                      (ih _ (by simpa using hk))
                  | true =>
                    cases hfns : cfg.outputFns with
                    | nil =>
                      try simp only [hfns]
                      refine ⟨[NetEvent.resp r dur], rfl, by simp [countRL, hnoRL],
                        by simpa using hk, by simp [lastRespSeen], copied, hc,
                        Or.inl ⟨rfl, [], by simp [hfns], rfl⟩⟩
                    | cons f fs =>
                      try simp only [hfns]
                      exact ⟨[NetEvent.resp r dur], rfl, by simp [countRL, hnoRL]; omega⟩
          | notJson raw =>
            try simp only [hb]
            refine ⟨[NetEvent.resp r dur], rfl, by simp [countRL, hnoRL], by simpa using hk,
              by simp [lastRespSeen], copied, hc, Or.inr ⟨rfl, _, rfl⟩⟩
        · simp only [if_neg h200]
          by_cases hrl : r.status = 429 ∨ r.status = 402
          · simp only [if_pos hrl]
            have hisRL : isRLev (NetEvent.resp r dur) = true := by
              rcases hrl with h | h <;> simp [isRLev, h]
            by_cases hfat : 5 < g.rlFailures + 1
            · simp only [if_pos hfat]
              refine ⟨[], r, dur, rfl, hisRL, ?_⟩
              simp [countRL, hisRL]
              omega
            · simp only [if_neg hfat]
              cases hh : handle_rate_limit { g.rl with request_start_time := some (g.now + g.wait) }
                  r (g.now + g.wait + dur) with
              | error e =>
                try simp only [hh]
                exact ⟨[NetEvent.resp r dur], rfl, by simp [countRL, hisRL]; omega⟩
              | ok p =>
                try simp only [hh]
                obtain ⟨w, rl2⟩ := p
                exact LoopSpec_lift cfg row g _ r dur rest _ (by simp [hisRL]) rfl
                  (ih _ (by simp; omega))
          · simp only [if_neg hrl]
            have hnoRL : isRLev (NetEvent.resp r dur) = false := by
              simp [isRLev]
              omega
            refine ⟨[NetEvent.resp r dur], rfl, by simp [countRL, hnoRL], by simpa using hk,
              by simp [lastRespSeen], copied, hc, Or.inr ⟨rfl, _, rfl⟩⟩

/-- The row-iteration invariant: a written record has the shape
`recShape`, the failure counter tracks the consumed rate-limit hits, and
fatal/crash/no-event outcomes respect the cap. -/
theorem procRow_spec (cfg : Config) (row : List String) (evts : List NetEvent) (g : GState)
    (hk : g.rlFailures ≤ 5) : StepSpec cfg g row evts (procRow cfg g row evts) := by
  unfold procRow
  cases ht : pyIdx row cfg.textColumn with
  | error e => exact ⟨[], rfl, by simpa [countRL] using hk⟩
  | ok text =>
    have hl := rowLoop_spec cfg row evts g hk
    cases hrl : rowLoop cfg g row evts with
    | fatal rest => rw [hrl] at hl; exact hl
    | crash e rest => rw [hrl] at hl; exact hl
    | noEvents => rw [hrl] at hl; exact hl
    | broke res ej g1 rest =>
      rw [hrl] at hl
      try simp only [hrl]
      obtain ⟨pre, hpre, hf, hle, hlr, copied, hcopied, hshape⟩ := hl
      cases hlast : g1.lastResp with
      | none =>
        try simp only [hlast]
        exact ⟨pre, hpre, by omega⟩
      | some r =>
        try simp only [hlast]
        cases hh : handle_rate_limit g1.rl r g1.now with
        | error e =>
          try simp only [hh]
          exact ⟨pre, hpre, by omega⟩
        | ok p =>
          try simp only [hh]
          obtain ⟨w, rl2⟩ := p
          cases ej with
          | none =>
            refine ⟨pre, hpre, by simpa using hf, by simpa using hle, copied, hcopied, ?_⟩
            rcases hshape with ⟨_, derived, hlen, hres⟩ | ⟨hres, jv, hjv⟩
            · exact Or.inl ⟨derived, hlen, hres⟩
            · cases hjv
          | some j =>
            cases hel : errLine j with
            | error e =>
              try simp only [hel]
              exact ⟨pre, hpre, by omega⟩
            | ok lineOpt =>
              try simp only [hel]
              cases lineOpt with
              | none =>
                refine ⟨pre, hpre, by simpa using hf, by simpa using hle, copied, hcopied, ?_⟩
                rcases hshape with ⟨hnone, _⟩ | ⟨hres, _⟩
                · cases hnone
                · exact Or.inr (Or.inr hres)
              | some line =>
                refine ⟨pre, hpre, by simpa using hf, by simpa using hle, copied, hcopied, ?_⟩
                rcases hshape with ⟨hnone, _⟩ | ⟨hres, _⟩
                · cases hnone
                · obtain ⟨tl, hline⟩ := errLine_some j line hel
                  exact Or.inr (Or.inl ⟨tl, by rw [hres, hline]⟩)

/-- The run invariant: records correspond one-to-one, in order, to the
processed prefix of the input rows, and the consumed script never holds
more than five rate-limit hits unless the run aborted on the sixth. -/
theorem runRows_spec (cfg : Config) :
    ∀ (rows : List (List String)) (evts : List NetEvent) (g : GState), g.rlFailures ≤ 5 →
      RunSpec cfg g rows evts (runRows cfg g rows evts) := by
  intro rows
  induction rows with
  | nil =>
    intro evts g hk
    unfold runRows
    exact ⟨⟨[], rfl, by simpa [countRL] using hk⟩, List.Forall₂.nil⟩
  | cons row more ih =>
    intro evts g hk
    unfold runRows
    have hp := procRow_spec cfg row evts g hk
    cases hpr : procRow cfg g row evts with
    | fatal rest =>
      rw [hpr] at hp
      try simp only [hpr]
      exact ⟨hp, List.Forall₂.nil⟩
    | crash e rest =>
      rw [hpr] at hp
      try simp only [hpr]
      exact ⟨hp, List.Forall₂.nil⟩
    | noEvents =>
      rw [hpr] at hp
      try simp only [hpr]
      exact ⟨hp, rfl, List.Forall₂.nil⟩
    | wrote rec g2 rest =>
      rw [hpr] at hp
      try simp only [hpr]
      obtain ⟨pre1, hpre1, hf1, hle1, hshape⟩ := hp
      have hr := ih rest g2 hle1
      cases hrr : runRows cfg g2 more rest with
      | done out r2 =>
        rw [hrr] at hr
        try simp only [hrr]
        obtain ⟨⟨pre2, hpre2, hcnt⟩, hfa⟩ := hr
        refine ⟨⟨pre1 ++ pre2, ?_, ?_⟩, List.Forall₂.cons hshape hfa⟩
        · rw [hpre1, hpre2, List.append_assoc]
        · rw [countRL_append]
          omega
      | fatal out r2 =>
        rw [hrr] at hr
        try simp only [hrr]
        obtain ⟨⟨pre2, r, dur, hpre2, hrlv, hcnt⟩, hfa⟩ := hr
        refine ⟨⟨pre1 ++ pre2, r, dur, ?_, hrlv, ?_⟩, List.Forall₂.cons hshape hfa⟩
        · rw [hpre1, hpre2, List.append_assoc]
        · rw [List.append_assoc, countRL_append]
          omega
      | crash e out r2 =>
        rw [hrr] at hr
        try simp only [hrr]
        obtain ⟨⟨pre2, hpre2, hcnt⟩, hfa⟩ := hr
        refine ⟨⟨pre1 ++ pre2, ?_, ?_⟩, List.Forall₂.cons hshape hfa⟩
        · rw [hpre1, hpre2, List.append_assoc]
        · rw [countRL_append]
          omega
      | stuck out r2 =>
        rw [hrr] at hr
        try simp only [hrr]
        obtain ⟨hcnt, hrest, hfa⟩ := hr
        refine ⟨?_, hrest, List.Forall₂.cons hshape hfa⟩
        rw [hpre1, countRL_append]
        omega

/-! ## Pipeline claims -/

/-- Counterexample to C1 as stated: a run over one row whose response is
a 500 error writes the record `["Error: boom"]` — one status field and
**zero** derived fields, not one derived value per compiled extraction
function (the configuration has one), so the record does not consist of
copied fields + status + one derived field per function. -/
theorem claim_c1_counterexample :
    runOut (runRows cfgOne gBase [rowHello] evtsErr) = [[("Error: boom")]] ∧
    cfgOne.copyColumns.length + 1 + cfgOne.outputFns.length ≠ 1 := by
  with_unfolding_all decide

/-- C1 (amended): every processed input row yields exactly one output
record, in input order (a fully processed run yields exactly one record
per row); a record is the row's copied fields followed by either
`"Success"` plus exactly one derived value per compiled extraction
function, or a single status beginning `"Error: "` with **no** derived
fields, or — when the error payload is falsy — nothing beyond the copied
fields. -/
theorem claim_c1 (cfg : Config) (g : GState) (rows : List (List String)) (evts : List NetEvent)
    (hk : g.rlFailures ≤ 5) :
    List.Forall₂ (recShape cfg) (rows.take (runOut (runRows cfg g rows evts)).length)
      (runOut (runRows cfg g rows evts)) ∧
    (runDone (runRows cfg g rows evts) = true →
       (runOut (runRows cfg g rows evts)).length = rows.length) := by
  have h := runRows_spec cfg rows evts g hk
  cases hr : runRows cfg g rows evts with
  | done out rest =>
    rw [hr] at h
    obtain ⟨_, hfa⟩ := h
    constructor
    · simp only [runOut]
      rw [← hfa.length_eq, List.take_length]
      exact hfa
    · intro _
      simp only [runOut]
      exact hfa.length_eq.symm
  | fatal out rest =>
    rw [hr] at h
    exact ⟨h.2, by simp [runDone]⟩
  | crash e out rest =>
    rw [hr] at h
    exact ⟨h.2, by simp [runDone]⟩
  | stuck out rest =>
    rw [hr] at h
    exact ⟨h.2.2, by simp [runDone]⟩

/-- Witness for C1: the error-row run satisfies the amended shape
correspondence. -/
theorem claim_c1_witness :
    gBase.rlFailures ≤ 5 ∧
    List.Forall₂ (recShape cfgOne)
      ([rowHello].take (runOut (runRows cfgOne gBase [rowHello] evtsErr)).length)
      (runOut (runRows cfgOne gBase [rowHello] evtsErr)) :=
  ⟨by decide, (claim_c1 cfgOne gBase [rowHello] evtsErr (by decide)).1⟩

/-- C2: starting from a fresh failure counter, the run aborts fatally
(`sys.exit(1)`) exactly on consuming its sixth rate-limited response — the
consumed prefix of the event script then holds exactly six 429/402
responses, ends with one (so no seventh request is attempted), and the cap
is global across the run; a run that does not abort fatally consumed five
or fewer rate-limited responses. -/
theorem claim_c2 (cfg : Config) (g : GState) (rows : List (List String)) (evts : List NetEvent)
    (h0 : g.rlFailures = 0) :
    (runFatal (runRows cfg g rows evts) = true →
       countRL (evts.take (evts.length - (runRest (runRows cfg g rows evts)).length)) = 6 ∧
       Option.map isRLev
         (evts.take (evts.length - (runRest (runRows cfg g rows evts)).length)).getLast? =
         some true) ∧
    (runFatal (runRows cfg g rows evts) = false →
       countRL (evts.take (evts.length - (runRest (runRows cfg g rows evts)).length)) ≤ 5) := by
  have h := runRows_spec cfg rows evts g (by omega)
  cases hr : runRows cfg g rows evts with
  | fatal out rest =>
    rw [hr] at h
    obtain ⟨⟨pre, r, dur, hpre, hrlv, hcnt⟩, _⟩ := h
    simp only [runFatal, runRest]
    have htake : evts.take (evts.length - rest.length) = pre ++ [NetEvent.resp r dur] := by
      rw [hpre]
      have hlen : (pre ++ NetEvent.resp r dur :: rest).length - rest.length = pre.length + 1 := by
        simp [List.length_append]
        omega
      rw [hlen, show pre.length + 1 = pre.length + 1 from rfl, List.take_append]
      simp
    refine ⟨fun _ => ⟨?_, ?_⟩, fun hf => Bool.noConfusion hf⟩
    · rw [htake]
      omega
    · rw [htake, List.getLast?_concat]
      simp [hrlv]
  | done out rest =>
    rw [hr] at h
    obtain ⟨⟨pre, hpre, hcnt⟩, _⟩ := h
    simp only [runFatal, runRest]
    have htake : evts.take (evts.length - rest.length) = pre := by
      rw [hpre]
      have hlen : (pre ++ rest).length - rest.length = pre.length := by
        simp [List.length_append]
      rw [hlen, List.take_left]
    refine ⟨fun hf => Bool.noConfusion hf, fun _ => ?_⟩
    rw [htake]
    omega
  | crash e out rest =>
    rw [hr] at h
    obtain ⟨⟨pre, hpre, hcnt⟩, _⟩ := h
    simp only [runFatal, runRest]
    have htake : evts.take (evts.length - rest.length) = pre := by
      rw [hpre]
      have hlen : (pre ++ rest).length - rest.length = pre.length := by
        simp [List.length_append]
      rw [hlen, List.take_left]
    refine ⟨fun hf => Bool.noConfusion hf, fun _ => ?_⟩
    rw [htake]
    omega
  | stuck out rest =>
    rw [hr] at h
    obtain ⟨hcnt, hrest, _⟩ := h
    simp only [runFatal, runRest]
    subst hrest
    refine ⟨fun hf => Bool.noConfusion hf, fun _ => ?_⟩
    simp only [List.length_nil, Nat.sub_zero, List.take_length]
    omega

/-- Witness for C2: a script of six 429 responses drives a one-row run to
the fatal exit, with all six rate-limit hits consumed. -/
theorem claim_c2_witness :
    gBase.rlFailures = 0 ∧
    countRL (evtsSix.take
      (evtsSix.length - (runRest (runRows cfgNil gBase [rowHello] evtsSix)).length)) = 6 :=
  ⟨rfl, ((claim_c2 cfgNil gBase [rowHello] evtsSix rfl).1 (by with_unfolding_all decide)).1⟩

/-- C9: for every row whose processing reaches a terminal outcome that
writes a record (Success, Error or TransportException), the rate-limiter
state after the row is exactly the update `handle_rate_limit` computes
from the response held in the `response` local at line 298 — including
error responses — and that local is the last response obtained during the
row when one was obtained (otherwise it is whatever stale value it held
before the row). -/
theorem claim_c9 (cfg : Config) (g : GState) (row : List String) (evts : List NetEvent)
    (rcd : List String) (g2 : GState) (rest : List NetEvent) (hk : g.rlFailures ≤ 5)
    (hw : procRow cfg g row evts = StepOut.wrote rcd g2 rest) :
    ∀ g1, rowLoopG cfg g row evts = some g1 →
      (∀ r, g1.lastResp = some r →
         handle_rate_limit g1.rl r g1.now = Except.ok (g2.wait, g2.rl)) ∧
      (∀ pre, evts = pre ++ rest → g1.lastResp = lastRespSeen pre g.lastResp) := by
  intro g1 hg1
  unfold rowLoopG at hg1
  unfold procRow at hw
  cases ht : pyIdx row cfg.textColumn with
  | error e =>
    rw [ht] at hw
    exact StepOut.noConfusion hw
  | ok text =>
    rw [ht] at hw
    cases hrl : rowLoop cfg g row evts with
    | fatal rest2 =>
      rw [hrl] at hw
      exact StepOut.noConfusion hw
    | crash e rest2 =>
      rw [hrl] at hw
      exact StepOut.noConfusion hw
    | noEvents =>
      rw [hrl] at hw
      exact StepOut.noConfusion hw
    | broke res ej gB restB =>
      rw [hrl] at hw
      rw [hrl] at hg1
      injection hg1 with hg1e
      subst hg1e
      simp only [] at hw
      cases hlast : gB.lastResp with
      | none =>
        rw [hlast] at hw
        exact StepOut.noConfusion hw
      | some r0 =>
        rw [hlast] at hw
        try simp only [] at hw
        cases hh : handle_rate_limit gB.rl r0 gB.now with
        | error e =>
          rw [hh] at hw
          exact StepOut.noConfusion hw
        | ok p =>
          rw [hh] at hw
          obtain ⟨w, rl2⟩ := p
          try simp only [] at hw
          have hg2 : g2 = ⟨gB.rlFailures, w, rl2, some r0, gB.now⟩ ∧ restB = rest := by
            cases ej with
            | none =>
              try simp only [] at hw
              injection hw with _ h2 h3
              exact ⟨h2.symm, h3⟩
            | some j =>
              try simp only [] at hw
              cases hel : errLine j with
              | error e =>
                rw [hel] at hw
                exact StepOut.noConfusion hw
              | ok lineOpt =>
                rw [hel] at hw
                try simp only [] at hw
                cases lineOpt with
                | none =>
                  try simp only [] at hw
                  injection hw with _ h2 h3
                  exact ⟨h2.symm, h3⟩
                | some line =>
                  try simp only [] at hw
                  injection hw with _ h2 h3
                  exact ⟨h2.symm, h3⟩
          obtain ⟨hg2, hrest⟩ := hg2
          constructor
          · intro r hr
            try rw [hlast] at hr
            injection hr with hre
            subst hre
            rw [hh, hg2]
          · intro pre hpre
            have hl := rowLoop_spec cfg row evts g hk
            rw [hrl] at hl
            obtain ⟨pre0, hpre0, _, _, hlr, _⟩ := hl
            rw [← hrest] at hpre
            have hpp : pre = pre0 := by
              apply List.append_cancel_right
              rw [← hpre, ← hpre0]
            rw [hpp, ← hlast]
            exact hlr

/-- Witness for C9: on the error-row run, the loop breaks holding the 500
response, and the post-row limiter state is exactly `handle_rate_limit`'s
update from that error response. -/
theorem claim_c9_witness :
    rowLoopG cfgOne gBase rowHello evtsErr = some gLoopErr ∧
    handle_rate_limit gLoopErr.rl respErr gLoopErr.now =
      Except.ok (gAfterErr.wait, gAfterErr.rl) := by
  have h1 : rowLoopG cfgOne gBase rowHello evtsErr = some gLoopErr := by
    with_unfolding_all rfl
  have hw : procRow cfgOne gBase rowHello evtsErr =
      StepOut.wrote [("Error: boom")] gAfterErr [] := by
    with_unfolding_all rfl
  exact ⟨h1, ((claim_c9 cfgOne gBase rowHello evtsErr _ _ _ (by decide) hw) gLoopErr h1).1
    respErr rfl⟩
